import Mathlib

/-!
Verification development for the rule-based PR review scanners
(`security-checker.py`, `scripts/lint-checker.py`, `scripts/ai-reviewer.py`).

Text is modelled as `List Char` (Python strings are sequences of code
points).  Regular-expression patterns from the source are embedded as an
explicit `Regex` AST together with a matcher whose `reSearch` corresponds
to Python's `re.search` viewed as a match-existence test: `re.search`
succeeds if and only if the pattern matches starting at some position of
the line, which for the backreference-free patterns of this code base is
NFA reachability, computed below by a bounded saturation.
-/

namespace AIPR

/-- Python's ASCII case folding on code points: `A`-`Z` map 32 up, the rest
are fixed.  This is what `str.lower()` and `re.IGNORECASE` do on the ASCII
text the scanners process. -/
def lowerNat (t : Nat) : Nat := if 65 ≤ t ∧ t ≤ 90 then t + 32 else t

/-- ASCII case folding on characters (`str.lower()` restricted to ASCII). -/
def lowerChar (c : Char) : Char :=
  if 65 ≤ c.toNat ∧ c.toNat ≤ 90 then Char.ofNat (c.toNat + 32) else c

/-- Python `\w` on ASCII: letters, digits, underscore. -/
def wordNat (t : Nat) : Bool :=
  decide ((97 ≤ t ∧ t ≤ 122) ∨ (65 ≤ t ∧ t ≤ 90) ∨ (48 ≤ t ∧ t ≤ 57) ∨ t = 95)

/-- Python `\s` on ASCII: space, tab, newline, carriage return, vertical
tab, form feed. -/
def wsNat (t : Nat) : Bool :=
  decide (t = 32 ∨ t = 9 ∨ t = 10 ∨ t = 13 ∨ t = 11 ∨ t = 12)

/-- Regular-expression abstract syntax covering exactly the constructs the
scanners' patterns use: character classes (as code-point predicates),
concatenation, alternation, Kleene star, word boundary `\b`, and negative
lookahead `(?!...)`. -/
inductive Regex where
  | eps : Regex
  | cls (test : Nat → Bool) : Regex
  | concat (a b : Regex) : Regex
  | alt (a b : Regex) : Regex
  | star (r : Regex) : Regex
  | wb : Regex
  | nla (r : Regex) : Regex

/-- Word-boundary test at position `i` of `line`: the two sides of the
position disagree on being a word character (ends of the line count as
non-word). -/
def wbAt (line : List Char) (i : Nat) : Bool :=
  let cur := match line.get? i with
    | some c => wordNat c.toNat
    | none => false
  let prev := if i = 0 then false else
    match line.get? (i - 1) with
    | some c => wordNat c.toNat
    | none => false
  cur != prev

/-- Worklist saturation: all positions reachable from the worklist by
iterating `f`, with enough fuel to visit every position once.  Used for
the Kleene star, whose match-existence semantics is reachability. -/
def starSat (f : Nat → List Nat) : Nat → List Nat → List Nat → List Nat
  | 0, acc, _ => acc
  | _ + 1, acc, [] => acc
  | fuel + 1, acc, w :: ws =>
    if acc.contains w then starSat f fuel acc ws
    else starSat f fuel (w :: acc) (ws ++ f w)

/-- The value `mtch line r i` is the set (as a list) of positions `j` such that `r`
matches the segment of `line` from `i` to `j`.  Matching a class consumes
one character; `star` is reachability via `starSat` (fuel
`(length+2)^2` dominates the at most `length+1` distinct positions times
the size of each successor list, so the saturation always reaches its
fixed point). -/
def mtch (line : List Char) : Regex → Nat → List Nat
  | .eps, i => [i]
  | .cls t, i =>
    match line.get? i with
    | some c => if t c.toNat then [i + 1] else []
    | none => []
  | .concat a b, i => ((mtch line a i).map (mtch line b)).flatten.dedup
  | .alt a b, i => (mtch line a i ++ mtch line b i).dedup
  | .star r, i =>
    starSat (fun j => mtch line r j) ((line.length + 2) * (line.length + 2)) [] [i]
  | .wb, i => if wbAt line i then [i] else []
  | .nla r, i => if (mtch line r i).isEmpty then [i] else []

/-- Models `re.search` as a match-existence test: the pattern matches starting at
some position of the line. -/
def reSearch (p : Regex) (line : List Char) : Bool :=
  (List.range (line.length + 1)).any fun i => !(mtch line p i).isEmpty

/-! Pattern combinators used to transcribe the source regexes. -/

/-- Concatenation of a list of regexes. -/
def rcat : List Regex → Regex
  | [] => .eps
  | r :: rs => .concat r (rcat rs)

/-- Alternation of a list of regexes (the empty alternation never
matches; all catalog alternations are nonempty). -/
def ralt : List Regex → Regex
  | [] => .cls fun _ => false
  | [r] => r
  | r :: rs => .alt r (ralt rs)

/-- Case-sensitive single-character class. -/
def litT (n : Nat) : Nat → Bool := fun t => decide (t = n)

/-- Case-insensitive letter class: the lowercase code `n` or its uppercase
counterpart `n - 32` (what `re.IGNORECASE` makes of an ASCII letter). -/
def pairT (n : Nat) : Nat → Bool := fun t => decide (t = n ∨ t = n - 32)

/-- ASCII letter test (the characters `re.IGNORECASE` affects in the
ASCII pattern texts of the catalog). -/
def isAsciiLetter (c : Char) : Bool :=
  decide ((65 ≤ c.toNat ∧ c.toNat ≤ 90) ∨ (97 ≤ c.toNat ∧ c.toNat ≤ 122))

/-- One character of a pattern compiled under `re.IGNORECASE`: letters
match both cases, every other character matches itself. -/
def ciCharR (c : Char) : Regex :=
  if isAsciiLetter c then .cls (pairT (lowerChar c).toNat) else .cls (litT c.toNat)

/-- A literal string under `re.IGNORECASE`. -/
def ciStr (s : String) : Regex := rcat (s.data.map ciCharR)

/-- A case-sensitive literal string. -/
def csStr (s : String) : Regex := rcat (s.data.map fun c => .cls (litT c.toNat))

/-- Pattern `.` : any character except a newline. -/
def dotR : Regex := .cls fun t => decide (t ≠ 10)

/-- Pattern `.*` -/
def dotStar : Regex := .star dotR

/-- Pattern `\s*` -/
def wsStar : Regex := .star (.cls wsNat)

/-- Pattern `\s+` -/
def wsPlus : Regex := .concat (.cls wsNat) wsStar

/-- Pattern `['"]` -/
def quoteR : Regex := .cls fun t => decide (t = 39 ∨ t = 34)

/-- Pattern `[a-zA-Z0-9+/=]` -/
def b64T : Nat → Bool := fun t =>
  decide ((97 ≤ t ∧ t ≤ 122) ∨ (65 ≤ t ∧ t ≤ 90) ∨ (48 ≤ t ∧ t ≤ 57) ∨
    t = 43 ∨ t = 47 ∨ t = 61)

/-- Pattern `[a-zA-Z0-9_-]` -/
def idT : Nat → Bool := fun t =>
  decide ((97 ≤ t ∧ t ≤ 122) ∨ (65 ≤ t ∧ t ≤ 90) ∨ (48 ≤ t ∧ t ≤ 57) ∨
    t = 95 ∨ t = 45)

/-- Pattern `r` repeated exactly `n` times. -/
def powR : Nat → Regex → Regex
  | 0, _ => .eps
  | n + 1, r => .concat r (powR n r)

/-- Pattern `r{n,}` : at least `n` repetitions. -/
def repMin (n : Nat) (r : Regex) : Regex := .concat (powR n r) (.star r)

/-- Pattern `r?` -/
def optR (r : Regex) : Regex := .alt r .eps

/-! ## The security rule catalog (`SecurityChecker._load_security_patterns`)

Each entry transcribes one pattern dictionary: the compiled regex (under
`re.IGNORECASE`, as `_scan_file` applies it), the source pattern text, the
message, and the severity string. -/

/-- One pattern entry of the catalog. -/
structure SecPattern where
  regex : Regex
  src : String
  message : String
  severity : String

/-- Pattern `(SELECT|INSERT|UPDATE|DELETE).*\+.*['"]` -/
def sqlPat1 : Regex :=
  rcat [ralt [ciStr "SELECT", ciStr "INSERT", ciStr "UPDATE", ciStr "DELETE"],
    dotStar, ciStr "+", dotStar, quoteR]

/-- Pattern `query\s*\(\s*["'].*\+.*["']\s*\)` -/
def sqlPat2 : Regex :=
  rcat [ciStr "query", wsStar, ciStr "(", wsStar, quoteR, dotStar, ciStr "+",
    dotStar, quoteR, wsStar, ciStr ")"]

/-- Pattern `innerHTML\s*=\s*.*\+.*` -/
def xssPat1 : Regex :=
  rcat [ciStr "innerHTML", wsStar, ciStr "=", wsStar, dotStar, ciStr "+", dotStar]

/-- Pattern `document\.write\s*\(\s*.*\+.*\)` -/
def xssPat2 : Regex :=
  rcat [ciStr "document.write", wsStar, ciStr "(", wsStar, dotStar, ciStr "+",
    dotStar, ciStr ")"]

/-- Pattern `eval\s*\(\s*.*\+.*\)` -/
def xssPat3 : Regex :=
  rcat [ciStr "eval", wsStar, ciStr "(", wsStar, dotStar, ciStr "+", dotStar,
    ciStr ")"]

/-- Pattern `(md5|sha1)\s*\(` -/
def cryptoPat1 : Regex :=
  rcat [ralt [ciStr "md5", ciStr "sha1"], wsStar, ciStr "("]

/-- Pattern `Math\.random\(\)` -/
def cryptoPat2 : Regex := ciStr "Math.random()"

/-- Pattern `(password|secret|key|token)\s*=\s*["'][a-zA-Z0-9+/=]{10,}["']` -/
def secretsPat1 : Regex :=
  rcat [ralt [ciStr "password", ciStr "secret", ciStr "key", ciStr "token"],
    wsStar, ciStr "=", wsStar, quoteR, repMin 10 (.cls b64T), quoteR]

/-- Pattern `(api_key|apikey)\s*=\s*["'][a-zA-Z0-9_-]{20,}["']` -/
def secretsPat2 : Regex :=
  rcat [ralt [ciStr "api_key", ciStr "apikey"], wsStar, ciStr "=", wsStar,
    quoteR, repMin 20 (.cls idT), quoteR]

/-- Pattern `(open|read|write).*\.\./` -/
def pathPat1 : Regex :=
  rcat [ralt [ciStr "open", ciStr "read", ciStr "write"], dotStar, ciStr "../"]

/-- Pattern `fs\.(readFile|writeFile).*\+.*` -/
def pathPat2 : Regex :=
  rcat [ciStr "fs.", ralt [ciStr "readFile", ciStr "writeFile"], dotStar,
    ciStr "+", dotStar]

/-- Pattern `pickle\.loads?\s*\(` -/
def deserPat1 : Regex :=
  rcat [ciStr "pickle.load", optR (ciStr "s"), wsStar, ciStr "("]

/-- Pattern `yaml\.load\s*\(\s*.*\)` -/
def deserPat2 : Regex :=
  rcat [ciStr "yaml.load", wsStar, ciStr "(", wsStar, dotStar, ciStr ")"]

/-- Pattern `(system|exec|popen|subprocess)\s*\(.*\+.*\)` -/
def cmdPat1 : Regex :=
  rcat [ralt [ciStr "system", ciStr "exec", ciStr "popen", ciStr "subprocess"],
    wsStar, ciStr "(", dotStar, ciStr "+", dotStar, ciStr ")"]

/-- Pattern `os\.system\s*\(.*\+.*\)` -/
def cmdPat2 : Regex :=
  rcat [ciStr "os.system", wsStar, ciStr "(", dotStar, ciStr "+", dotStar,
    ciStr ")"]

/-- Pattern `http://(?!localhost|127\.0\.0\.1|0\.0\.0\.0)` -/
def transPat1 : Regex :=
  rcat [ciStr "http://",
    .nla (ralt [ciStr "localhost", ciStr "127.0.0.1", ciStr "0.0.0.0"])]

/-- Pattern `ssl.*verify.*false|verify.*false.*ssl` -/
def transPat2 : Regex :=
  ralt [rcat [ciStr "ssl", dotStar, ciStr "verify", dotStar, ciStr "false"],
    rcat [ciStr "verify", dotStar, ciStr "false", dotStar, ciStr "ssl"]]

/-- The category → patterns dictionary, in the source's insertion order. -/
def securityPatterns : List (String × List SecPattern) :=
  [("sql_injection",
    [⟨sqlPat1, "(SELECT|INSERT|UPDATE|DELETE).*\\+.*[\x27\"]",
      "Potential SQL injection: String concatenation in SQL query", "high"⟩,
     ⟨sqlPat2, "query\\s*\\(\\s*[\"\x27].*\\+.*[\"\x27]\\s*\\)",
      "Potential SQL injection: Dynamic query construction", "high"⟩]),
   ("xss",
    [⟨xssPat1, "innerHTML\\s*=\\s*.*\\+.*",
      "Potential XSS: Dynamic HTML content without sanitization", "high"⟩,
     ⟨xssPat2, "document\\.write\\s*\\(\\s*.*\\+.*\\)",
      "Potential XSS: document.write with dynamic content", "medium"⟩,
     ⟨xssPat3, "eval\\s*\\(\\s*.*\\+.*\\)",
      "Potential code injection: eval() with dynamic content", "high"⟩]),
   ("insecure_crypto",
    [⟨cryptoPat1, "(md5|sha1)\\s*\\(",
      "Insecure cryptographic hash function (MD5/SHA1)", "medium"⟩,
     ⟨cryptoPat2, "Math\\.random\\(\\)",
      "Weak random number generator - use crypto.randomBytes() instead", "low"⟩]),
   ("hardcoded_secrets",
    [⟨secretsPat1,
      "(password|secret|key|token)\\s*=\\s*[\"\x27][a-zA-Z0-9+/=]\x7b10,\x7d[\"\x27]",
      "Potential hardcoded secret or password", "high"⟩,
     ⟨secretsPat2,
      "(api_key|apikey)\\s*=\\s*[\"\x27][a-zA-Z0-9_-]\x7b20,\x7d[\"\x27]",
      "Potential hardcoded API key", "high"⟩]),
   ("path_traversal",
    [⟨pathPat1, "(open|read|write).*\\.\\./",
      "Potential path traversal vulnerability", "high"⟩,
     ⟨pathPat2, "fs\\.(readFile|writeFile).*\\+.*",
      "Potential path injection in file operations", "medium"⟩]),
   ("insecure_deserialization",
    [⟨deserPat1, "pickle\\.loads?\\s*\\(",
      "Insecure deserialization with pickle", "high"⟩,
     ⟨deserPat2, "yaml\\.load\\s*\\(\\s*.*\\)",
      "Potential unsafe YAML deserialization", "medium"⟩]),
   ("command_injection",
    [⟨cmdPat1, "(system|exec|popen|subprocess)\\s*\\(.*\\+.*\\)",
      "Potential command injection: Dynamic command execution", "high"⟩,
     ⟨cmdPat2, "os\\.system\\s*\\(.*\\+.*\\)",
      "Potential command injection in os.system()", "high"⟩]),
   ("insecure_transport",
    [⟨transPat1, "http://(?!localhost|127\\.0\\.0\\.1|0\\.0\\.0\\.0)",
      "Insecure HTTP connection - use HTTPS", "medium"⟩,
     ⟨transPat2, "ssl.*verify.*false|verify.*false.*ssl",
      "SSL certificate verification disabled", "high"⟩])]

/-- A catalog rule: a category name together with one of its patterns.
`_scan_file` iterates these in the order of `securityPatterns`. -/
structure SecRule where
  category : String
  regex : Regex
  src : String
  message : String
  severity : String

/-- Flatten the category dictionary into the rule sequence in iteration
order (categories in insertion order, patterns in list order). -/
def flattenCats : List (String × List SecPattern) → List SecRule
  | [] => []
  | (cat, ps) :: rest =>
    ps.map (fun p => ⟨cat, p.regex, p.src, p.message, p.severity⟩) ++ flattenCats rest

/-- The flat catalog, in `_scan_file`'s iteration order. -/
def catalogFlat : List SecRule := flattenCats securityPatterns

/-! ## Findings and the file scanner (`SecurityChecker._scan_file`) -/

/-- One finding dictionary appended to `issues`.  `patternSrc` is the
`"pattern"` key, present on catalog findings and absent on
language-specific ones. -/
structure Finding where
  file : String
  line : Nat
  category : String
  severity : String
  message : String
  snippet : List Char
  patternSrc : Option String
deriving DecidableEq, Repr

/-- Python `str.strip()`: remove leading and trailing whitespace. -/
def pstrip (l : List Char) : List Char :=
  ((l.dropWhile fun c => wsNat c.toNat).reverse.dropWhile fun c =>
    wsNat c.toNat).reverse

/-- Python `content.split('\n')`: split on every newline; the empty string
yields one empty line. -/
def pySplit : List Char → List (List Char)
  | [] => [[]]
  | c :: rest =>
    if c = '\n' then [] :: pySplit rest
    else
      match pySplit rest with
      | l :: ls => (c :: l) :: ls
      | [] => [[c]]

/-- The per-rule line loop of `_scan_file`: `for line_num, line in
enumerate(lines, 1): if re.search(pattern, line, re.IGNORECASE): append`.
`n` is the number of the first line of `lines`. -/
def ruleScan (file : String) (r : SecRule) : Nat → List (List Char) → List Finding
  | _, [] => []
  | n, l :: ls =>
    (if reSearch r.regex l then
      [⟨file, n, r.category, r.severity, r.message, pstrip l, some r.src⟩]
    else []) ++ ruleScan file r (n + 1) ls

/-- The outer loop of `_scan_file` over the catalog rules. -/
def scanRules (file : String) (rs : List SecRule) (lines : List (List Char)) :
    List Finding :=
  match rs with
  | [] => []
  | r :: rest => ruleScan file r 1 lines ++ scanRules file rest lines

/-- Models `_check_javascript_security`: per line, the case-sensitive
`\beval\s*\(` check then the `__proto__|constructor\.prototype` check. -/
def jsEvalPat : Regex := rcat [.wb, csStr "eval", wsStar, csStr "("]

/-- Models `__proto__|constructor\.prototype` (case-sensitive). -/
def jsProtoPat : Regex := ralt [csStr "__proto__", csStr "constructor.prototype"]

/-- JavaScript-specific checks, starting at line number `n`. -/
def checkJavascript (file : String) : Nat → List (List Char) → List Finding
  | _, [] => []
  | n, l :: ls =>
    (if reSearch jsEvalPat l then
      [⟨file, n, "code_injection", "high",
        "Use of eval() function - potential code injection risk", pstrip l, none⟩]
    else []) ++
    (if reSearch jsProtoPat l then
      [⟨file, n, "prototype_pollution", "medium",
        "Potential prototype pollution vulnerability", pstrip l, none⟩]
    else []) ++ checkJavascript file (n + 1) ls

/-- Pattern `import\s+(pickle|marshal|shelve)` (case-sensitive). -/
def pyImportPat : Regex :=
  rcat [csStr "import", wsPlus,
    ralt [csStr "pickle", csStr "marshal", csStr "shelve"]]

/-- Models `_check_python_security`. -/
def checkPython (file : String) : Nat → List (List Char) → List Finding
  | _, [] => []
  | n, l :: ls =>
    (if reSearch pyImportPat l then
      [⟨file, n, "insecure_deserialization", "high",
        "Potentially unsafe deserialization module imported", pstrip l, none⟩]
    else []) ++ checkPython file (n + 1) ls

/-- Pattern `XMLInputFactory|DocumentBuilderFactory` (case-sensitive). -/
def javaXxePat : Regex :=
  ralt [csStr "XMLInputFactory", csStr "DocumentBuilderFactory"]

/-- Models `_check_java_security`. -/
def checkJava (file : String) : Nat → List (List Char) → List Finding
  | _, [] => []
  | n, l :: ls =>
    (if reSearch javaXxePat l then
      [⟨file, n, "xxe", "medium",
        "XML parser - ensure XXE protection is enabled", pstrip l, none⟩]
    else []) ++ checkJava file (n + 1) ls

/-- Pattern `\b<func>\s*\(` for a dangerous PHP function name. -/
def phpPat (func : String) : Regex := rcat [.wb, csStr func, wsStar, csStr "("]

/-- The dangerous-function list of `_check_php_security`. -/
def phpDangerous : List String := ["eval", "exec", "system", "shell_exec", "passthru"]

/-- Inner loop of `_check_php_security` for one line. -/
def phpLine (file : String) (n : Nat) (l : List Char) : List String → List Finding
  | [] => []
  | f :: fs =>
    (if reSearch (phpPat f) l then
      [⟨file, n, "command_injection", "high",
        "Dangerous function \x27" ++ f ++ "()\x27 used - potential command injection",
        pstrip l, none⟩]
    else []) ++ phpLine file n l fs

/-- Models `_check_php_security`. -/
def checkPhp (file : String) : Nat → List (List Char) → List Finding
  | _, [] => []
  | n, l :: ls => phpLine file n l phpDangerous ++ checkPhp file (n + 1) ls

/-- Python `str.rfind(c)`: index of the last occurrence. -/
def lastIdxOf (c : Char) (l : List Char) : Option Nat :=
  match l.reverse.findIdx? (· = c) with
  | none => none
  | some j => some (l.length - 1 - j)

/-- The final path component (after the last `/`). -/
def lastComp (l : List Char) : List Char :=
  (l.reverse.takeWhile (· ≠ '/')).reverse

/-- Models `pathlib.Path(...).suffix` for a file name: the part from the last dot
on, nonempty only when that dot is neither the first nor the last
character of the name. -/
def pySuffix (name : List Char) : List Char :=
  match lastIdxOf '.' name with
  | none => []
  | some i => if 0 < i ∧ i + 1 < name.length then name.drop i else []

/-- Models `Path(file_path).suffix.lower()`. -/
def extLower (path : String) : List Char :=
  (pySuffix (lastComp path.data)).map lowerChar

/-- Models `_check_language_specific`: dispatch on the lower-cased extension. -/
def langChecks (file : String) (lines : List (List Char)) (ext : List Char) :
    List Finding :=
  if ext = ".js".data ∨ ext = ".ts".data ∨ ext = ".jsx".data ∨ ext = ".tsx".data then
    checkJavascript file 1 lines
  else if ext = ".py".data then checkPython file 1 lines
  else if ext = ".java".data then checkJava file 1 lines
  else if ext = ".php".data then checkPhp file 1 lines
  else []

/-- Models `_scan_file` on successfully read content: the catalog loop followed by
the language-specific checks (both see the same `content.split('\n')`). -/
def scanFile (path : String) (content : List Char) : List Finding :=
  let lines := pySplit content
  scanRules path catalogFlat lines ++ langChecks path lines (extLower path)

/-! ## The batch loop and aggregation (`SecurityChecker.check_files`, `main`) -/

/-- What the file system holds at a path: the path does not exist
(`os.path.exists` is false), the path exists but opening or reading it
raises (caught by `_scan_file`'s `except`, which then returns no
findings), or the decoded text content (`errors='ignore'` decoding makes
reads of existing readable files succeed). -/
inductive FileStatus where
  | missing : FileStatus
  | readError : FileStatus
  | content (text : List Char) : FileStatus

/-- The file system as an environment. -/
def SecFS := String → FileStatus

/-- The scanning loop of `check_files`: per file, skip when
`os.path.exists` fails, otherwise count it in `total_files`, scan it, and
when it has issues count it in `files_with_issues` and extend
`vulnerabilities`.  Returns `(total_files, files_with_issues,
vulnerabilities)`; the head file's contribution comes first, matching the
left-to-right `extend` order. -/
def scanBatch (fs : SecFS) : List String → Nat × Nat × List Finding
  | [] => (0, 0, [])
  | p :: rest =>
    let acc := scanBatch fs rest
    match fs p with
    | .missing => acc
    | .readError => (acc.1 + 1, acc.2.1, acc.2.2)
    | .content text =>
      let issues := scanFile p text
      (acc.1 + 1, acc.2.1 + (if issues.isEmpty then 0 else 1), issues ++ acc.2.2)

/-- The `errors` count: findings counted by `vuln["severity"] == "high"`. -/
def errorsOf (vulns : List Finding) : Nat :=
  vulns.countP fun v => v.severity == "high"

/-- The `warnings` count: every finding whose severity is not `"high"`. -/
def warningsOf (vulns : List Finding) : Nat :=
  vulns.countP fun v => !(v.severity == "high")

/-- Models `_calculate_security_score`: 100 minus 15 per high finding and 5 per
other finding, floored at 0. -/
def calcSecurityScore (high mediumLow : Nat) : Int :=
  max 0 (100 - 15 * (high : Int) - 5 * (mediumLow : Int))

/-- The `results` dictionary of the security checker after `check_files`. -/
structure SecResults where
  totalFiles : Nat
  filesWithIssues : Nat
  errors : Nat
  warnings : Nat
  vulnerabilities : List Finding
  securityScore : Int

/-- Models `check_files`: run the batch loop, then count errors and warnings and
compute the score. -/
def secCheckFiles (fs : SecFS) (files : List String) : SecResults :=
  let acc := scanBatch fs files
  { totalFiles := acc.1
    filesWithIssues := acc.2.1
    errors := errorsOf acc.2.2
    warnings := warningsOf acc.2.2
    vulnerabilities := acc.2.2
    securityScore := calcSecurityScore (errorsOf acc.2.2) (warningsOf acc.2.2) }

/-- Models `main` of `security-checker.py` after argument parsing, as
`(exit code, files scanned)`: an empty file list exits 0 having scanned
nothing; otherwise the checker runs and the exit code is 1 exactly when
high-severity findings exist. -/
def securityMain (fs : SecFS) (files : List String) : Nat × Nat :=
  if files.isEmpty then (0, 0)
  else
    let r := secCheckFiles fs files
    (if r.errors > 0 then 1 else 0, r.totalFiles)

/-! ## The lint checker (`scripts/lint-checker.py`)

The external linters (`eslint`, `tsc`, `flake8`, `gofmt`, `rustfmt`,
`rubocop`) are out-of-scope collaborators invoked through `subprocess`;
each tool-backed branch is modelled by an environment `LintEnv` giving,
per path, the issue list that branch produced, with `none` standing for
the tool being unavailable or failing (the `except` paths), in which case
the in-repo fallback checks run. -/

/-- One style-issue dictionary of the lint checker. -/
structure LintIssue where
  file : String
  line : Nat
  severity : String
  message : String
  category : String
deriving DecidableEq, Repr

/-- Parsed result of one external-tool branch for a path, `none` when the
tool run raised (timeout, missing binary, bad JSON). -/
def LintEnv := String → Option (List LintIssue)

/-- Python `str.rstrip()`: drop trailing whitespace. -/
def rstripWs (l : List Char) : List Char :=
  (l.reverse.dropWhile fun c => wsNat c.toNat).reverse

/-- Python `str.rstrip('\n')`: drop trailing newlines only. -/
def rstripNl (l : List Char) : List Char :=
  (l.reverse.dropWhile fun c => c = '\n').reverse

/-- Python `str.lstrip(' ')`: drop leading spaces only. -/
def lstripSpace (l : List Char) : List Char := l.dropWhile (· = ' ')

/-- Substring test (`needle in haystack`). -/
def hasSubstr (needle : List Char) : List Char → Bool
  | [] => needle.isEmpty
  | c :: rest => needle.isPrefixOf (c :: rest) || hasSubstr needle rest

/-- Python `f.readlines()`: split into lines, each keeping its trailing
newline; an empty file gives no lines. -/
def pyReadlines : List Char → List (List Char)
  | [] => []
  | c :: rest =>
    if c = '\n' then ['\n'] :: pyReadlines rest
    else
      match pyReadlines rest with
      | l :: ls => (c :: l) :: ls
      | [] => [[c]]

/-- The three per-line tests of `_check_common_issues` (lines keep their
trailing newline, as `readlines` yields them). -/
def commonLine (file : String) (n : Nat) (l : List Char) : List LintIssue :=
  (if !(rstripWs l == rstripNl l) then
    [⟨file, n, "warning", "Trailing whitespace", "whitespace"⟩]
  else []) ++
  (if (rstripWs l).length > 120 then
    [⟨file, n, "warning",
      "Line too long (" ++ toString (rstripWs l).length ++ " > 120 characters)",
      "line-length"⟩]
  else []) ++
  (if hasSubstr ['\t'] l && hasSubstr [' ', ' ', ' ', ' '] l then
    [⟨file, n, "warning", "Mixed tabs and spaces for indentation", "indentation"⟩]
  else [])

/-- Line loop of `_check_common_issues`. -/
def commonLoop (file : String) : Nat → List (List Char) → List LintIssue
  | _, [] => []
  | n, l :: ls => commonLine file n l ++ commonLoop file (n + 1) ls

/-- Models `_check_common_issues`: read the file (a failed read is caught and
yields no issues) and run the three per-line checks. -/
def commonChecks (file : String) (st : FileStatus) : List LintIssue :=
  match st with
  | .content text => commonLoop file 1 (pyReadlines text)
  | _ => []

/-- One line of `_basic_javascript_check`: the missing-semicolon
heuristic. -/
def basicJsLine (file : String) (n : Nat) (l : List Char) : List LintIssue :=
  let stripped := pstrip l
  if !stripped.isEmpty &&
      !(match stripped.getLast? with
        | some c => c = ';' ∨ c = '{' ∨ c = '}' ∨ c = ':' ∨ c = ','
        | none => False) &&
      !(["if", "for", "while", "function", "class", "const", "let", "var",
          "//"].any fun p => p.data.isPrefixOf stripped) then
    [⟨file, n, "warning", "Missing semicolon", "javascript-style"⟩]
  else []

/-- Line loop of `_basic_javascript_check` (lines from `split('\n')`). -/
def basicJsLoop (file : String) : Nat → List (List Char) → List LintIssue
  | _, [] => []
  | n, l :: ls => basicJsLine file n l ++ basicJsLoop file (n + 1) ls

/-- Models `_basic_javascript_check` (a failed read is caught and yields no
issues). -/
def basicJavascriptCheck (file : String) (st : FileStatus) : List LintIssue :=
  match st with
  | .content text => basicJsLoop file 1 (pySplit text)
  | _ => []

/-- One line of `_basic_python_check` (lines keep their newline): lines
already indented by four spaces or a tab pass; otherwise a nonblank line
starting with a space must have a multiple-of-four leading-space count. -/
def basicPyLine (file : String) (n : Nat) (l : List Char) : List LintIssue :=
  if [' ', ' ', ' ', ' '].isPrefixOf l ∨ ['\t'].isPrefixOf l then []
  else if !(pstrip l).isEmpty && [' '].isPrefixOf l then
    let leading := l.length - (lstripSpace l).length
    if leading % 4 ≠ 0 then
      [⟨file, n, "warning",
        "Indentation should be multiple of 4 spaces (found " ++
          toString leading ++ ")", "python-indentation"⟩]
    else []
  else []

/-- Line loop of `_basic_python_check`. -/
def basicPyLoop (file : String) : Nat → List (List Char) → List LintIssue
  | _, [] => []
  | n, l :: ls => basicPyLine file n l ++ basicPyLoop file (n + 1) ls

/-- Models `_basic_python_check`. -/
def basicPythonCheck (file : String) (st : FileStatus) : List LintIssue :=
  match st with
  | .content text => basicPyLoop file 1 (pyReadlines text)
  | _ => []

/-- One line of `_basic_java_check` (lines from `split('\n')`). -/
def basicJavaLine (file : String) (n : Nat) (l : List Char) : List LintIssue :=
  let stripped := pstrip l
  if (match stripped.getLast? with | some c => c = '{' | none => False) &&
      !(["if", "for", "while", "class", "public", "private", "protected"].any
        fun p => p.data.isPrefixOf stripped) then
    if l.contains ' ' && !([' ', '{'].isSuffixOf l) then
      [⟨file, n, "warning", "Opening brace should be preceded by a space",
        "java-style"⟩]
    else []
  else []

/-- Line loop of `_basic_java_check`. -/
def basicJavaLoop (file : String) : Nat → List (List Char) → List LintIssue
  | _, [] => []
  | n, l :: ls => basicJavaLine file n l ++ basicJavaLoop file (n + 1) ls

/-- Models `_basic_java_check`. -/
def basicJavaCheck (file : String) (st : FileStatus) : List LintIssue :=
  match st with
  | .content text => basicJavaLoop file 1 (pySplit text)
  | _ => []

/-- The extension dispatch of `LintChecker.check_files`: tool-backed
branches consult the environment and fall back to the in-repo basic
checks; `_basic_cpp_check`, `_basic_csharp_check`, `_basic_php_check` and
`_basic_ruby_check` return no issues; unknown extensions get none. -/
def lintDispatch (env : LintEnv) (st : FileStatus) (p : String) : List LintIssue :=
  let ext := extLower p
  if ext = ".js".data ∨ ext = ".jsx".data then
    (env p).getD (basicJavascriptCheck p st)
  else if ext = ".ts".data ∨ ext = ".tsx".data then
    (env p).getD (basicJavascriptCheck p st)
  else if ext = ".py".data then (env p).getD (basicPythonCheck p st)
  else if ext = ".java".data then basicJavaCheck p st
  else if ext = ".go".data then (env p).getD []
  else if ext = ".rs".data then (env p).getD []
  else if ext = ".c".data ∨ ext = ".cpp".data ∨ ext = ".h".data then []
  else if ext = ".cs".data then []
  else if ext = ".php".data then []
  else if ext = ".rb".data then (env p).getD []
  else []

/-- The file loop of `LintChecker.check_files`, as `(total_files,
files_with_issues, style_issues)`. -/
def lintBatch (env : LintEnv) (fs : SecFS) : List String → Nat × Nat × List LintIssue
  | [] => (0, 0, [])
  | p :: rest =>
    let acc := lintBatch env fs rest
    match fs p with
    | .missing => acc
    | st =>
      let issues := lintDispatch env st p ++ commonChecks p st
      (acc.1 + 1, acc.2.1 + (if issues.isEmpty then 0 else 1), issues ++ acc.2.2)

/-- The `errors` count: issues counted by `issue["severity"] == "error"`. -/
def lintErrorsOf (issues : List LintIssue) : Nat :=
  issues.countP fun i => i.severity == "error"

/-- The `warnings` count: every issue whose severity is not `"error"`. -/
def lintWarningsOf (issues : List LintIssue) : Nat :=
  issues.countP fun i => !(i.severity == "error")

/-- Models `_calculate_lint_score`: 100 minus 10 per error and 2 per warning,
floored at 0. -/
def calcLintScore (errors warnings : Nat) : Int :=
  max 0 (100 - 10 * (errors : Int) - 2 * (warnings : Int))

/-- The `results` dictionary of the lint checker after `check_files`. -/
structure LintResults where
  totalFiles : Nat
  filesWithIssues : Nat
  errors : Nat
  warnings : Nat
  styleIssues : List LintIssue
  lintScore : Int

/-- Models `LintChecker.check_files`. -/
def lintCheckFiles (env : LintEnv) (fs : SecFS) (files : List String) : LintResults :=
  let acc := lintBatch env fs files
  { totalFiles := acc.1
    filesWithIssues := acc.2.1
    errors := lintErrorsOf acc.2.2
    warnings := lintWarningsOf acc.2.2
    styleIssues := acc.2.2
    lintScore := calcLintScore (lintErrorsOf acc.2.2) (lintWarningsOf acc.2.2) }

/-- Models `main` of `lint-checker.py` after argument parsing, as `(exit code,
files scanned)`: an empty file list exits 0 having scanned nothing;
otherwise `check_files` runs and `main` returns normally, so the process
exits 0 regardless of the results. -/
def lintMain (env : LintEnv) (fs : SecFS) (files : List String) : Nat × Nat :=
  if files.isEmpty then (0, 0)
  else (0, (lintCheckFiles env fs files).totalFiles)

/-! ## The AI reviewer (`scripts/ai-reviewer.py`)

The issue lists come back from the language-model API, so an issue's
severity string is whatever the model produced; `generate_summary` and
`_get_recommendation` are the in-repo logic modelled here. -/

/-- One issue dictionary of an AI analysis. -/
structure AIIssue where
  severity : String
  category : String
deriving DecidableEq, Repr

/-- The `analysis` value of one per-file result. -/
structure AIAnalysis where
  overallScore : ℚ
  issues : List AIIssue
  suggestions : List String

/-- One element of the `results` list handed to `generate_summary`; the
`analysis` key is absent on the no-diff and error shapes. -/
structure AIFileResult where
  analysis : Option AIAnalysis

/-- All issues across the results (`analysis.get('issues', [])` of every
result that has an `analysis`). -/
def allIssues (rs : List AIFileResult) : List AIIssue :=
  (rs.map fun r =>
    match r.analysis with
    | some a => a.issues
    | none => []).flatten

/-- The `severity_counts` entry for one severity string. -/
def sevCount (rs : List AIFileResult) (s : String) : Nat :=
  (allIssues rs).countP fun i => i.severity == s

/-- The `avg_score` value: mean of the per-file overall scores, 70 when no result
has an analysis. -/
def avgScore (rs : List AIFileResult) : ℚ :=
  let scores := (rs.filterMap fun r => r.analysis).map fun a => a.overallScore
  if scores.isEmpty then 70 else scores.sum / scores.length

/-- The "not recommended" verdict string. -/
def notRecLabel : String :=
  "❌ **Not Recommended for Merge** - Critical issues found that should be addressed before merging."

/-- The "caution" verdict string. -/
def cautionLabel : String :=
  "⚠️ **Merge with Caution** - Multiple medium-severity issues found. Consider addressing before merge."

/-- The "needs improvement" verdict string. -/
def needsImpLabel : String :=
  "⚠️ **Needs Improvement** - Code quality score is below acceptable threshold."

/-- The "approved with suggestions" verdict string. -/
def apprSugLabel : String :=
  "✅ **Approved with Suggestions** - Code is acceptable but has room for improvement."

/-- The "approved" verdict string. -/
def apprLabel : String :=
  "✅ **Approved** - Code looks good! No major issues found."

/-- Models `_get_recommendation`: the five-branch decision list. -/
def getRecommendation (high medium low : Nat) (avg : ℚ) : String :=
  if high > 0 then notRecLabel
  else if medium > 3 then cautionLabel
  else if avg < 60 then needsImpLabel
  else if medium > 0 || low > 5 then apprSugLabel
  else apprLabel

/-- The summary fields of `generate_summary` needed here: the severity
breakdown, the total issue count, and the recommendation. -/
structure AISummary where
  high : Nat
  medium : Nat
  low : Nat
  totalIssues : Nat
  recommendation : String

/-- Models `generate_summary` restricted to those fields. -/
def aiSummary (rs : List AIFileResult) : AISummary :=
  { high := sevCount rs "high"
    medium := sevCount rs "medium"
    low := sevCount rs "low"
    totalIssues := (allIssues rs).length
    recommendation :=
      getRecommendation (sevCount rs "high") (sevCount rs "medium")
        (sevCount rs "low") (avgScore rs) }

/-! ## Concrete environments used by counterexamples and witnesses -/

/-- A file system in which every path holds the one-character text `x`. -/
def xTextFS : SecFS := fun _ => .content ['x']

/-- A file system in which no path exists. -/
def missingFS : SecFS := fun _ => .missing

/-- A file system in which every path exists but cannot be read. -/
def readErrFS : SecFS := fun _ => .readError

/-- A lint-tool environment reporting one error-severity issue for every
path (e.g. a parsed `tsc` type error). -/
def errEnv : LintEnv := fun _ =>
  some [⟨"a.ts", 3, "error", "Type error", "typescript"⟩]

/-- A list of AI results with a single high-severity issue. -/
def aiOneHigh : List AIFileResult :=
  [⟨some ⟨80, [⟨"high", "security"⟩], []⟩⟩]

/-- The line of the spec's Scenario A. -/
def c4Line : List Char :=
  "query(\"SELECT * FROM users WHERE id=\" + userId)".data

/-- The catalog's pattern texts in rule order. -/
def catalogSrcs : List String := catalogFlat.map fun r => r.src

/-- The catalog position of the rule that produced a finding, recovered
from its recorded pattern text. -/
def ruleIdx (f : Finding) : Nat := catalogSrcs.indexOf (f.patternSrc.getD "")

/-- The catalog position of a rule's pattern text. -/
def ruleKey (r : SecRule) : Nat := catalogSrcs.indexOf r.src

/-- The two-line demonstration file: line 1 matches only the
`insecure_crypto` `Math.random()` rule, line 2 matches only the first
`sql_injection` rule. -/
def demoContent : List Char := "Math.random()\nx = \"SELECT \" + y + \"z\"".data

/-- The first catalog rule, used to witness the amended C9 theorem. -/
def sqlRule1 : SecRule :=
  ⟨"sql_injection", sqlPat1,
   "(SELECT|INSERT|UPDATE|DELETE).*\\+.*[\x27\"]",
   "Potential SQL injection: String concatenation in SQL query", "high"⟩

/-- A line matching the first SQL rule. -/
def sqlDemoLine : List Char := "a = \"SELECT \" + b + \"c\"".data

/-! ## Support lemmas -/

/-- A predicate and its negation count every element exactly once. -/
theorem countP_not_add {α : Type} (p : α → Bool) (l : List α) :
    l.countP p + l.countP (fun a => !(p a)) = l.length := by
  induction l with
  | nil => rfl
  | cons a t ih =>
    cases hp : p a <;>
      simp [List.countP_cons, hp, ← ih] <;> omega

/-- Counting issues whose severities all lie in `{high, medium, low}`:
the three counts partition the list. -/
theorem three_sev_counts (l : List AIIssue)
    (h : ∀ i ∈ l, i.severity = "high" ∨ i.severity = "medium" ∨ i.severity = "low") :
    (l.countP fun i => i.severity == "high") +
      (l.countP fun i => i.severity == "medium") +
      (l.countP fun i => i.severity == "low") = l.length := by
  induction l with
  | nil => rfl
  | cons a t ih =>
    have ht := ih fun i hi => h i (List.mem_cons_of_mem a hi)
    rcases h a (List.mem_cons_self a t) with ha | ha | ha <;>
      simp [List.countP_cons, ha, ← ht] <;> omega

/-! ## Claim theorems -/

/-- Claim C1, counterexample: A batch holding one error-severity lint
finding for which the lint checker's process nevertheless exits with
status 0: the claim's "non-zero when at least one such finding exists" is
false for the lint checker, whose `main` never inspects the error count. -/
theorem C1_counterexample :
    (lintMain errEnv xTextFS ["a.ts"]).1 = 0 ∧
    (lintCheckFiles errEnv xTextFS ["a.ts"]).errors = 1 := by
  constructor
  · rfl
  · decide

/-- Claim C1, amended: The security checker exits 0 exactly when no
high-severity finding exists (for a nonempty file list; an empty list also
exits 0 with no findings possible), but the lint checker always exits 0,
whatever findings its scan produced. -/
theorem C1_security_exit_lint_always_zero :
    (∀ (fs : SecFS) (files : List String), files ≠ [] →
      ((securityMain fs files).1 = 0 ↔ (secCheckFiles fs files).errors = 0)) ∧
    (∀ (env : LintEnv) (fs : SecFS) (files : List String),
      (lintMain env fs files).1 = 0) := by
  constructor
  · intro fs files h
    match files with
    | [] => exact absurd rfl h
    | p :: rest =>
      simp only [securityMain, List.isEmpty_cons, if_false, Bool.false_eq_true]
      split <;> omega
  · intro env fs files
    cases files <;> rfl

/-- Claim C1, witness: The amended theorem applied to a concrete nonempty
batch whose single file scans clean. -/
theorem C1_witness : (securityMain xTextFS ["a.txt"]).1 = 0 :=
  (C1_security_exit_lint_always_zero.1 xTextFS ["a.txt"]
    (by simp)).2 (by decide)

/-- Claim C2: For every list of findings, the computed score is 100 minus
15 per high-severity finding and 5 per other finding, clamped to
`[0, 100]` (security checker), and 100 minus 10 per error and 2 per
warning, clamped to `[0, 100]` (lint checker). -/
theorem C2_score_formula :
    (∀ vulns : List Finding,
      calcSecurityScore (errorsOf vulns) (warningsOf vulns) =
        min 100 (max 0
          (100 - 15 * (errorsOf vulns : Int) - 5 * (warningsOf vulns : Int)))) ∧
    (∀ issues : List LintIssue,
      calcLintScore (lintErrorsOf issues) (lintWarningsOf issues) =
        min 100 (max 0
          (100 - 10 * (lintErrorsOf issues : Int) - 2 * (lintWarningsOf issues : Int)))) := by
  constructor
  · intro vulns
    unfold calcSecurityScore
    omega
  · intro issues
    unfold calcLintScore
    omega

/-- Claim C3: The recommendation is a first-match-wins decision list: any
high finding gives "not recommended"; else more than 3 medium findings
give "caution"; else a score below 60 gives "needs improvement"; else any
medium finding or more than 5 low findings give "approved with
suggestions"; else "approved". -/
theorem C3_recommendation_decision_list :
    ∀ (h m l : Nat) (s : ℚ),
      (0 < h → getRecommendation h m l s = notRecLabel) ∧
      (h = 0 → 3 < m → getRecommendation h m l s = cautionLabel) ∧
      (h = 0 → m ≤ 3 → s < 60 → getRecommendation h m l s = needsImpLabel) ∧
      (h = 0 → m ≤ 3 → 60 ≤ s → (0 < m ∨ 5 < l) →
        getRecommendation h m l s = apprSugLabel) ∧
      (h = 0 → m = 0 → 60 ≤ s → l ≤ 5 → getRecommendation h m l s = apprLabel) := by
  intro h m l s
  refine ⟨fun hh => ?_, fun h0 hm => ?_, fun h0 hm hs => ?_,
    fun h0 hm hs hml => ?_, fun h0 hm hs hl => ?_⟩
  · simp [getRecommendation, hh]
  · subst h0
    simp [getRecommendation, hm]
  · subst h0
    simp [getRecommendation, Nat.not_lt.mpr hm, hs]
  · subst h0
    rcases hml with hm0 | hl5
    · simp [getRecommendation, Nat.not_lt.mpr hm, not_lt.mpr hs, hm0]
    · simp [getRecommendation, Nat.not_lt.mpr hm, not_lt.mpr hs, hl5]
  · subst h0; subst hm
    simp [getRecommendation, not_lt.mpr hs, Nat.not_lt.mpr hl]

/-- Claim C3, witness: One high-severity finding forces "not recommended". -/
theorem C3_witness : getRecommendation 1 0 0 90 = notRecLabel :=
  (C3_recommendation_decision_list 1 0 0 90).1 (by norm_num)

/-- Claim C5: On an empty supplied file list both checkers exit with status
0 having scanned zero files (no hard failure). -/
theorem C5_empty_batch :
    ∀ (fs : SecFS) (env : LintEnv),
      securityMain fs [] = (0, 0) ∧ lintMain env fs [] = (0, 0) :=
  fun _ _ => ⟨rfl, rfl⟩

/-- Claim C6, counterexample: A batch whose single file is missing: the
read fails, yet the file is not counted in `total_files` (the claim says
every read-failed file is still counted), because `check_files` skips
non-existing paths before incrementing the counter. -/
theorem C6_counterexample :
    missingFS "gone.py" = .missing ∧
    (secCheckFiles missingFS ["gone.py"]).totalFiles = 0 :=
  ⟨rfl, rfl⟩

/-- Claim C6, amended: A missing file is skipped entirely — not counted and
producing nothing — while an existing file whose read raises is counted in
`total_files`, yields no findings and no recorded per-file error, and
scanning of the remaining files continues unchanged in both cases. -/
theorem C6_amended_read_failures :
    ∀ (fs : SecFS) (p : String) (rest : List String),
      (fs p = .missing → secCheckFiles fs (p :: rest) = secCheckFiles fs rest) ∧
      (fs p = .readError →
        (secCheckFiles fs (p :: rest)).totalFiles =
          (secCheckFiles fs rest).totalFiles + 1 ∧
        (secCheckFiles fs (p :: rest)).vulnerabilities =
          (secCheckFiles fs rest).vulnerabilities ∧
        (secCheckFiles fs (p :: rest)).filesWithIssues =
          (secCheckFiles fs rest).filesWithIssues) := by
  intro fs p rest
  constructor
  · intro h
    simp [secCheckFiles, scanBatch, h]
  · intro h
    refine ⟨?_, ?_, ?_⟩ <;> simp [secCheckFiles, scanBatch, h]

/-- Claim C6, witness: The amended theorem at a missing file and at an
unreadable file. -/
theorem C6_witness :
    secCheckFiles missingFS ["gone.py"] = secCheckFiles missingFS [] ∧
    (secCheckFiles readErrFS ["ro.py"]).totalFiles =
      (secCheckFiles readErrFS []).totalFiles + 1 :=
  ⟨(C6_amended_read_failures missingFS "gone.py" []).1 rfl,
   ((C6_amended_read_failures readErrFS "ro.py" []).2 rfl).1⟩

/-- Claim C7: The severity breakdown sums to the total number of findings:
`errors + warnings` equals the length of the vulnerability list for every
security batch, and `high + medium + low` equals the total issue count of
the AI summary whenever every issue severity lies in the three-valued
scale. -/
theorem C7_severity_breakdown_sums :
    (∀ (fs : SecFS) (files : List String),
      (secCheckFiles fs files).errors + (secCheckFiles fs files).warnings =
        (secCheckFiles fs files).vulnerabilities.length) ∧
    (∀ rs : List AIFileResult,
      (∀ i ∈ allIssues rs,
        i.severity = "high" ∨ i.severity = "medium" ∨ i.severity = "low") →
      (aiSummary rs).high + (aiSummary rs).medium + (aiSummary rs).low =
        (aiSummary rs).totalIssues) := by
  constructor
  · intro fs files
    exact countP_not_add (fun v => v.severity == "high")
      (scanBatch fs files).2.2
  · intro rs h
    exact three_sev_counts (allIssues rs) h

/-- Claim C7, witness: The AI part applied to one result with one
high-severity issue. -/
theorem C7_witness :
    (aiSummary aiOneHigh).high + (aiSummary aiOneHigh).medium +
      (aiSummary aiOneHigh).low = (aiSummary aiOneHigh).totalIssues :=
  C7_severity_breakdown_sums.2 aiOneHigh (by decide)

/-- Claim C8: The scores are monotonically non-increasing in every finding
count and always lie in `[0, 100]`: one more high finding (or error) and
one more medium/low finding (or warning) never raise the score. -/
theorem C8_score_monotone_bounded :
    ∀ h w e wr : Nat,
      calcSecurityScore (h + 1) w ≤ calcSecurityScore h w ∧
      calcSecurityScore h (w + 1) ≤ calcSecurityScore h w ∧
      0 ≤ calcSecurityScore h w ∧ calcSecurityScore h w ≤ 100 ∧
      calcLintScore (e + 1) wr ≤ calcLintScore e wr ∧
      calcLintScore e (wr + 1) ≤ calcLintScore e wr ∧
      0 ≤ calcLintScore e wr ∧ calcLintScore e wr ≤ 100 := by
  intro h w e wr
  unfold calcSecurityScore calcLintScore
  refine ⟨?_, ?_, ?_, ?_, ?_, ?_, ?_, ?_⟩ <;> omega

/-- Claim C4: Evaluating the scanner at the claimed input: a `.js` file
consisting of the line `query("SELECT * FROM users WHERE id=" + userId)`
produces no finding at all — in particular not the claimed single
high-severity `sql_injection` finding.  Both SQL-injection patterns
require a quote character after the `+`, which this canonical
concatenation does not have. -/
theorem C4_scan_produces_no_finding :
    scanFile "app.js" c4Line = [] := by decide

/-! ## Ordering of the scan output (claim C10) -/

/-- Every finding emitted by one rule's line loop carries that rule's
pattern text and a line number at least the starting number. -/
theorem ruleScan_mem {file : String} {r : SecRule} :
    ∀ {n : Nat} {ls : List (List Char)} {f : Finding},
      f ∈ ruleScan file r n ls → f.patternSrc = some r.src ∧ n ≤ f.line := by
  intro n ls
  induction ls generalizing n with
  | nil => intro f h; cases h
  | cons l ls ih =>
    intro f h
    simp only [ruleScan] at h
    rcases List.mem_append.1 h with h1 | h2
    · split at h1
      · rcases List.mem_singleton.1 h1 with rfl
        exact ⟨rfl, Nat.le_refl n⟩
      · cases h1
    · obtain ⟨hsrc, hle⟩ := ih h2
      exact ⟨hsrc, Nat.le_trans (Nat.le_succ n) hle⟩

/-- One rule's line loop emits findings with strictly increasing line
numbers. -/
theorem ruleScan_pairwise {file : String} {r : SecRule} :
    ∀ (n : Nat) (ls : List (List Char)),
      (ruleScan file r n ls).Pairwise fun f g => f.line < g.line := by
  intro n ls
  induction ls generalizing n with
  | nil => exact List.Pairwise.nil
  | cons l ls ih =>
    simp only [ruleScan]
    refine List.pairwise_append.2 ⟨?_, ih (n + 1), ?_⟩
    · split
      · exact List.pairwise_singleton _ _
      · exact List.Pairwise.nil
    · intro f hf g hg
      have hg' := (ruleScan_mem hg).2
      split at hf
      · rcases List.mem_singleton.1 hf with rfl
        show n < g.line
        omega
      · cases hf

/-- Every finding of the rule loop comes from one of its rules' blocks. -/
theorem scanRules_mem {file : String} {lines : List (List Char)} :
    ∀ {rs : List SecRule} {g : Finding}, g ∈ scanRules file rs lines →
      ∃ r ∈ rs, g ∈ ruleScan file r 1 lines := by
  intro rs
  induction rs with
  | nil => intro g h; cases h
  | cons r rest ih =>
    intro g h
    simp only [scanRules] at h
    rcases List.mem_append.1 h with h1 | h2
    · exact ⟨r, List.mem_cons_self r rest, h1⟩
    · obtain ⟨r', hr', hg⟩ := ih h2
      exact ⟨r', List.mem_cons_of_mem r hr', hg⟩

/-- A finding of a rule's block indexes to that rule's catalog position. -/
theorem ruleIdx_of_block {file : String} {r : SecRule} {n : Nat}
    {ls : List (List Char)} {f : Finding} (h : f ∈ ruleScan file r n ls) :
    ruleIdx f = ruleKey r := by
  have hs := (ruleScan_mem h).1
  simp [ruleIdx, ruleKey, hs]

/-- The catalog's rules have strictly increasing catalog positions (its
17 pattern texts are pairwise distinct). -/
theorem catalog_key_mono :
    catalogFlat.Pairwise fun a b => ruleKey a < ruleKey b := by decide

/-- The rule loop over rules of strictly increasing catalog position
emits findings sorted rule-major: by catalog position, and by line within
one rule. -/
theorem scanRules_pairwise (file : String) (lines : List (List Char)) :
    ∀ rs : List SecRule, (rs.Pairwise fun a b => ruleKey a < ruleKey b) →
      (scanRules file rs lines).Pairwise fun f g =>
        ruleIdx f < ruleIdx g ∨ (ruleIdx f = ruleIdx g ∧ f.line ≤ g.line) := by
  intro rs
  induction rs with
  | nil => intro _; exact List.Pairwise.nil
  | cons r rest ih =>
    intro hp
    rcases List.pairwise_cons.1 hp with ⟨hhead, htail⟩
    simp only [scanRules]
    refine List.pairwise_append.2 ⟨?_, ih htail, ?_⟩
    · refine List.Pairwise.imp_of_mem ?_ (ruleScan_pairwise 1 lines)
      intro f g hf hg hlt
      exact Or.inr ⟨(ruleIdx_of_block hf).trans (ruleIdx_of_block hg).symm,
        Nat.le_of_lt hlt⟩
    · intro f hf g hg
      obtain ⟨r', hr', hgblk⟩ := scanRules_mem hg
      refine Or.inl ?_
      rw [ruleIdx_of_block hf, ruleIdx_of_block hgblk]
      exact hhead r' hr'

/-- Claim C10: The scan output is rule-major: the catalog findings are
sorted by catalog rule position and, within one rule, by ascending line;
a whole scan is the catalog findings followed by language-specific ones;
and concretely a finding on line 2 (from the earlier SQL rule) precedes a
finding on line 1 (from the later crypto rule). -/
theorem C10_rule_major_order :
    (∀ (file : String) (lines : List (List Char)),
      (scanRules file catalogFlat lines).Pairwise fun f g =>
        ruleIdx f < ruleIdx g ∨ (ruleIdx f = ruleIdx g ∧ f.line ≤ g.line)) ∧
    (∀ (path : String) (content : List Char),
      scanFile path content =
        scanRules path catalogFlat (pySplit content) ++
          langChecks path (pySplit content) (extLower path)) ∧
    (scanFile "t.txt" demoContent).map (fun f => (f.line, f.category)) =
      [(2, "sql_injection"), (1, "insecure_crypto")] :=
  ⟨fun file lines => scanRules_pairwise file lines catalogFlat catalog_key_mono,
   fun _ _ => rfl, by decide⟩

/-! ## Case insensitivity of the catalog rules (claim C9)

A catalog pattern is compiled under `re.IGNORECASE`; this is captured by
the predicate `CiOK`: every character class of the pattern is invariant
under ASCII case folding of its input.  Such a pattern matches a line and
its lower-cased image identically. -/

/-- Applying `Char.ofNat` to a valid code point round-trips through `toNat`. -/
theorem toNat_ofNat_valid {n : Nat} (h : n.isValidChar) :
    (Char.ofNat n).toNat = n := by
  simp [Char.ofNat, dif_pos h, Char.ofNatAux, Char.toNat, UInt32.toNat]

/-- Case folding commutes with taking the code point. -/
theorem toNat_lowerChar (c : Char) : (lowerChar c).toNat = lowerNat c.toNat := by
  unfold lowerChar lowerNat
  by_cases h : 65 ≤ c.toNat ∧ c.toNat ≤ 90
  · simp only [if_pos h]
    exact toNat_ofNat_valid (Or.inl (by omega))
  · simp only [if_neg h]

/-- The character classes of a regex are all invariant under ASCII case
folding (no `\b`, which the catalog patterns do not use). -/
inductive CiOK : Regex → Prop where
  | eps : CiOK .eps
  | cls {t : Nat → Bool} (h : ∀ n, t (lowerNat n) = t n) : CiOK (.cls t)
  | concat {a b : Regex} : CiOK a → CiOK b → CiOK (.concat a b)
  | alt {a b : Regex} : CiOK a → CiOK b → CiOK (.alt a b)
  | star {r : Regex} : CiOK r → CiOK (.star r)
  | nla {r : Regex} : CiOK r → CiOK (.nla r)

/-- Saturation only depends on the successor function pointwise. -/
theorem starSat_congr {f g : Nat → List Nat} (h : ∀ j, f j = g j) :
    ∀ (fuel : Nat) (acc w : List Nat), starSat f fuel acc w = starSat g fuel acc w := by
  intro fuel
  induction fuel with
  | zero => intro acc w; rfl
  | succ m ih =>
    intro acc w
    match w with
    | [] => rfl
    | x :: xs =>
      simp only [starSat]
      split
      · exact ih acc xs
      · rw [h x]
        exact ih (x :: acc) (xs ++ g x)

/-- A `CiOK` pattern matches the lower-cased line exactly as it matches
the original line. -/
theorem mtch_lower {r : Regex} (hr : CiOK r) (line : List Char) :
    ∀ i, mtch (line.map lowerChar) r i = mtch line r i := by
  induction hr with
  | eps => intro i; rfl
  | cls h =>
    intro i
    simp only [mtch, List.get?_map]
    cases hc : line.get? i with
    | none => rfl
    | some c =>
      simp only [Option.map_some']
      rw [toNat_lowerChar, h c.toNat]
  | concat _ _ iha ihb =>
    intro i
    simp only [mtch]
    rw [iha i, List.map_congr_left fun j _ => ihb j]
  | alt _ _ iha ihb =>
    intro i
    simp only [mtch]
    rw [iha i, ihb i]
  | star _ ih =>
    intro i
    simp only [mtch, List.length_map]
    exact starSat_congr (fun j => ih j) _ [] [i]
  | nla _ ih =>
    intro i
    simp only [mtch]
    rw [ih i]

/-- The `re.search` of a `CiOK` pattern is invariant under case folding of
the line. -/
theorem reSearch_lower {r : Regex} (hr : CiOK r) (line : List Char) :
    reSearch r (line.map lowerChar) = reSearch r line := by
  simp only [reSearch, List.length_map]
  have h : (fun i => !(mtch (line.map lowerChar) r i).isEmpty) =
      fun i => !(mtch line r i).isEmpty :=
    funext fun i => by rw [mtch_lower hr line i]
  rw [h]

/-! Case-fold invariance of the individual character classes. -/

/-- The class of a lower-case letter and its upper-case twin. -/
theorem ciok_pairT {m : Nat} (h1 : 97 ≤ m) (h2 : m ≤ 122) :
    CiOK (.cls (pairT m)) := by
  refine .cls fun n => ?_
  unfold pairT lowerNat
  by_cases h : 65 ≤ n ∧ n ≤ 90
  · simp only [if_pos h]
    rw [decide_eq_decide]
    omega
  · simp only [if_neg h]

/-- The class of a single non-letter character. -/
theorem ciok_litT {m : Nat} (hu : ¬(65 ≤ m ∧ m ≤ 90)) (hl : ¬(97 ≤ m ∧ m ≤ 122)) :
    CiOK (.cls (litT m)) := by
  refine .cls fun n => ?_
  unfold litT lowerNat
  by_cases h : 65 ≤ n ∧ n ≤ 90
  · simp only [if_pos h]
    rw [decide_eq_decide]
    omega
  · simp only [if_neg h]

/-- Case folding a letter lands in the lower-case range. -/
theorem lowerNat_letter {t : Nat}
    (h : (65 ≤ t ∧ t ≤ 90) ∨ (97 ≤ t ∧ t ≤ 122)) :
    97 ≤ lowerNat t ∧ lowerNat t ≤ 122 := by
  unfold lowerNat
  by_cases hu : 65 ≤ t ∧ t ≤ 90
  · simp only [if_pos hu]
    omega
  · simp only [if_neg hu]
    omega

/-- One `re.IGNORECASE`-compiled pattern character is `CiOK`. -/
theorem ciok_ciCharR (c : Char) : CiOK (ciCharR c) := by
  unfold ciCharR
  by_cases h : isAsciiLetter c
  · simp only [if_pos h]
    unfold isAsciiLetter at h
    rw [decide_eq_true_eq] at h
    rw [toNat_lowerChar]
    exact ciok_pairT (lowerNat_letter h).1 (lowerNat_letter h).2
  · simp only [if_neg h]
    unfold isAsciiLetter at h
    rw [decide_eq_true_eq, not_or] at h
    exact ciok_litT h.1 h.2

/-- Concatenations of `CiOK` pieces are `CiOK`. -/
theorem ciok_rcat : ∀ l : List Regex, (∀ x ∈ l, CiOK x) → CiOK (rcat l)
  | [], _ => .eps
  | r :: rs, h =>
    .concat (h r (List.mem_cons_self r rs))
      (ciok_rcat rs fun x hx => h x (List.mem_cons_of_mem r hx))

/-- Alternations of `CiOK` pieces are `CiOK`. -/
theorem ciok_ralt : ∀ l : List Regex, (∀ x ∈ l, CiOK x) → CiOK (ralt l)
  | [], _ => .cls fun _ => rfl
  | [r], h => h r (List.mem_singleton.2 rfl)
  | r :: r' :: rs, h =>
    .alt (h r (List.mem_cons_self r (r' :: rs)))
      (ciok_ralt (r' :: rs) fun x hx => h x (List.mem_cons_of_mem r hx))

/-- Ignore-case literal strings are `CiOK`. -/
theorem ciok_ciStr (s : String) : CiOK (ciStr s) :=
  ciok_rcat _ fun x hx => by
    obtain ⟨c, _, rfl⟩ := List.mem_map.1 hx
    exact ciok_ciCharR c

/-- Pattern `.` is `CiOK` (a newline is not a letter). -/
theorem ciok_dotR : CiOK dotR := by
  refine .cls fun n => ?_
  unfold lowerNat
  by_cases h : 65 ≤ n ∧ n ≤ 90
  · simp only [if_pos h]
    rw [decide_eq_decide]
    omega
  · simp only [if_neg h]

/-- Pattern `.*` is `CiOK`. -/
theorem ciok_dotStar : CiOK dotStar := .star ciok_dotR

/-- Pattern `\s` is `CiOK` (whitespace is not a letter). -/
theorem ciok_wsCls : CiOK (.cls wsNat) := by
  refine .cls fun n => ?_
  unfold wsNat lowerNat
  by_cases h : 65 ≤ n ∧ n ≤ 90
  · simp only [if_pos h]
    rw [decide_eq_decide]
    omega
  · simp only [if_neg h]

/-- Pattern `\s*` is `CiOK`. -/
theorem ciok_wsStar : CiOK wsStar := .star ciok_wsCls

/-- Pattern `['"]` is `CiOK`. -/
theorem ciok_quoteR : CiOK quoteR := by
  refine .cls fun n => ?_
  unfold lowerNat
  by_cases h : 65 ≤ n ∧ n ≤ 90
  · simp only [if_pos h]
    rw [decide_eq_decide]
    omega
  · simp only [if_neg h]

/-- Pattern `[a-zA-Z0-9+/=]` is `CiOK` (it contains both letter cases). -/
theorem ciok_b64Cls : CiOK (.cls b64T) := by
  refine .cls fun n => ?_
  unfold b64T lowerNat
  by_cases h : 65 ≤ n ∧ n ≤ 90
  · simp only [if_pos h]
    rw [decide_eq_decide]
    omega
  · simp only [if_neg h]

/-- Pattern `[a-zA-Z0-9_-]` is `CiOK`. -/
theorem ciok_idCls : CiOK (.cls idT) := by
  refine .cls fun n => ?_
  unfold idT lowerNat
  by_cases h : 65 ≤ n ∧ n ≤ 90
  · simp only [if_pos h]
    rw [decide_eq_decide]
    omega
  · simp only [if_neg h]

/-- Finite powers of a `CiOK` pattern are `CiOK`. -/
theorem ciok_powR {r : Regex} (h : CiOK r) : ∀ n, CiOK (powR n r)
  | 0 => .eps
  | n + 1 => .concat h (ciok_powR h n)

/-- Pattern `r{n,}` of a `CiOK` pattern is `CiOK`. -/
theorem ciok_repMin {r : Regex} (h : CiOK r) (n : Nat) : CiOK (repMin n r) :=
  .concat (ciok_powR h n) (.star h)

/-- Pattern `r?` of a `CiOK` pattern is `CiOK`. -/
theorem ciok_optR {r : Regex} (h : CiOK r) : CiOK (optR r) := .alt h .eps

/-! Each catalog pattern is `CiOK`. -/

/-- The first SQL-injection pattern is `CiOK`. -/
theorem ciok_sqlPat1 : CiOK sqlPat1 := by
  refine ciok_rcat _ fun x hx => ?_
  fin_cases hx <;>
    first
      | exact ciok_dotStar
      | exact ciok_quoteR
      | exact ciok_ciStr _
      | exact ciok_ralt _ fun y hy => by fin_cases hy <;> exact ciok_ciStr _

/-- The second SQL-injection pattern is `CiOK`. -/
theorem ciok_sqlPat2 : CiOK sqlPat2 := by
  refine ciok_rcat _ fun x hx => ?_
  fin_cases hx <;>
    first
      | exact ciok_dotStar
      | exact ciok_wsStar
      | exact ciok_quoteR
      | exact ciok_ciStr _

/-- The `innerHTML` XSS pattern is `CiOK`. -/
theorem ciok_xssPat1 : CiOK xssPat1 := by
  refine ciok_rcat _ fun x hx => ?_
  fin_cases hx <;>
    first
      | exact ciok_dotStar
      | exact ciok_wsStar
      | exact ciok_ciStr _

/-- The `document.write` XSS pattern is `CiOK`. -/
theorem ciok_xssPat2 : CiOK xssPat2 := by
  refine ciok_rcat _ fun x hx => ?_
  fin_cases hx <;>
    first
      | exact ciok_dotStar
      | exact ciok_wsStar
      | exact ciok_ciStr _

/-- The `eval` XSS pattern is `CiOK`. -/
theorem ciok_xssPat3 : CiOK xssPat3 := by
  refine ciok_rcat _ fun x hx => ?_
  fin_cases hx <;>
    first
      | exact ciok_dotStar
      | exact ciok_wsStar
      | exact ciok_ciStr _

/-- The weak-hash pattern is `CiOK`. -/
theorem ciok_cryptoPat1 : CiOK cryptoPat1 := by
  refine ciok_rcat _ fun x hx => ?_
  fin_cases hx <;>
    first
      | exact ciok_wsStar
      | exact ciok_ciStr _
      | exact ciok_ralt _ fun y hy => by fin_cases hy <;> exact ciok_ciStr _

/-- The `Math.random()` pattern is `CiOK`. -/
theorem ciok_cryptoPat2 : CiOK cryptoPat2 := ciok_ciStr _

/-- The hardcoded-secret pattern is `CiOK`. -/
theorem ciok_secretsPat1 : CiOK secretsPat1 := by
  refine ciok_rcat _ fun x hx => ?_
  fin_cases hx <;>
    first
      | exact ciok_wsStar
      | exact ciok_quoteR
      | exact ciok_ciStr _
      | exact ciok_repMin ciok_b64Cls _
      | exact ciok_ralt _ fun y hy => by fin_cases hy <;> exact ciok_ciStr _

/-- The API-key pattern is `CiOK`. -/
theorem ciok_secretsPat2 : CiOK secretsPat2 := by
  refine ciok_rcat _ fun x hx => ?_
  fin_cases hx <;>
    first
      | exact ciok_wsStar
      | exact ciok_quoteR
      | exact ciok_ciStr _
      | exact ciok_repMin ciok_idCls _
      | exact ciok_ralt _ fun y hy => by fin_cases hy <;> exact ciok_ciStr _

/-- The path-traversal pattern is `CiOK`. -/
theorem ciok_pathPat1 : CiOK pathPat1 := by
  refine ciok_rcat _ fun x hx => ?_
  fin_cases hx <;>
    first
      | exact ciok_dotStar
      | exact ciok_ciStr _
      | exact ciok_ralt _ fun y hy => by fin_cases hy <;> exact ciok_ciStr _

/-- The file-operation path pattern is `CiOK`. -/
theorem ciok_pathPat2 : CiOK pathPat2 := by
  refine ciok_rcat _ fun x hx => ?_
  fin_cases hx <;>
    first
      | exact ciok_dotStar
      | exact ciok_ciStr _
      | exact ciok_ralt _ fun y hy => by fin_cases hy <;> exact ciok_ciStr _

/-- The pickle pattern is `CiOK`. -/
theorem ciok_deserPat1 : CiOK deserPat1 := by
  refine ciok_rcat _ fun x hx => ?_
  fin_cases hx <;>
    first
      | exact ciok_wsStar
      | exact ciok_ciStr _
      | exact ciok_optR (ciok_ciStr _)

/-- The YAML pattern is `CiOK`. -/
theorem ciok_deserPat2 : CiOK deserPat2 := by
  refine ciok_rcat _ fun x hx => ?_
  fin_cases hx <;>
    first
      | exact ciok_dotStar
      | exact ciok_wsStar
      | exact ciok_ciStr _

/-- The command-execution pattern is `CiOK`. -/
theorem ciok_cmdPat1 : CiOK cmdPat1 := by
  refine ciok_rcat _ fun x hx => ?_
  fin_cases hx <;>
    first
      | exact ciok_dotStar
      | exact ciok_wsStar
      | exact ciok_ciStr _
      | exact ciok_ralt _ fun y hy => by fin_cases hy <;> exact ciok_ciStr _

/-- The `os.system` pattern is `CiOK`. -/
theorem ciok_cmdPat2 : CiOK cmdPat2 := by
  refine ciok_rcat _ fun x hx => ?_
  fin_cases hx <;>
    first
      | exact ciok_dotStar
      | exact ciok_wsStar
      | exact ciok_ciStr _

/-- The HTTP pattern (with its negative lookahead) is `CiOK`. -/
theorem ciok_transPat1 : CiOK transPat1 := by
  refine ciok_rcat _ fun x hx => ?_
  fin_cases hx <;>
    first
      | exact ciok_ciStr _
      | exact .nla (ciok_ralt _ fun y hy => by fin_cases hy <;> exact ciok_ciStr _)

/-- The SSL-verification pattern is `CiOK`. -/
theorem ciok_transPat2 : CiOK transPat2 := by
  refine ciok_ralt _ fun x hx => ?_
  fin_cases hx <;>
    · refine ciok_rcat _ fun y hy => ?_
      fin_cases hy <;>
        first
          | exact ciok_dotStar
          | exact ciok_ciStr _

/-- Every catalog rule's pattern is `CiOK`. -/
theorem ciok_catalog : ∀ r ∈ catalogFlat, CiOK r.regex := by
  intro r hr
  fin_cases hr <;>
    first
      | exact ciok_sqlPat1
      | exact ciok_sqlPat2
      | exact ciok_xssPat1
      | exact ciok_xssPat2
      | exact ciok_xssPat3
      | exact ciok_cryptoPat1
      | exact ciok_cryptoPat2
      | exact ciok_secretsPat1
      | exact ciok_secretsPat2
      | exact ciok_pathPat1
      | exact ciok_pathPat2
      | exact ciok_deserPat1
      | exact ciok_deserPat2
      | exact ciok_cmdPat1
      | exact ciok_cmdPat2
      | exact ciok_transPat1
      | exact ciok_transPat2

/-! ## Per-rule finding counts (claim C9) -/

/-- One rule's block holds exactly one finding per matching line when the
pattern text is the rule's own, and none of another rule's findings. -/
theorem ruleScan_countP {file : String} {r : SecRule} {s : String} :
    ∀ (n : Nat) (ls : List (List Char)),
      ((ruleScan file r n ls).countP fun f => decide (f.patternSrc = some s)) =
        if r.src = s then ls.countP (fun l => reSearch r.regex l) else 0 := by
  intro n ls
  induction ls generalizing n with
  | nil =>
    simp only [ruleScan, List.countP_nil]
    split <;> rfl
  | cons l ls ih =>
    simp only [ruleScan, List.countP_append, ih (n + 1)]
    by_cases hsrc : r.src = s
    · subst hsrc
      simp only [if_pos rfl, List.countP_cons]
      by_cases hm : reSearch r.regex l
      · simp [hm]
        omega
      · simp [hm]
    · simp only [if_neg hsrc]
      by_cases hm : reSearch r.regex l
      · simp [hm, hsrc]
      · simp [hm]

/-- Rules whose pattern text differs from `s` contribute no finding
recorded with pattern text `s`. -/
theorem scanRules_countP_zero {file : String} {lines : List (List Char)}
    {s : String} :
    ∀ rs : List SecRule, (∀ r ∈ rs, r.src ≠ s) →
      ((scanRules file rs lines).countP fun f => decide (f.patternSrc = some s)) = 0 := by
  intro rs
  induction rs with
  | nil => intro _; rfl
  | cons r0 rest ih =>
    intro h
    simp only [scanRules, List.countP_append, ruleScan_countP,
      if_neg (h r0 (List.mem_cons_self r0 rest))]
    rw [ih fun r' hr' => h r' (List.mem_cons_of_mem r0 hr')]

/-- Over rules with pairwise distinct pattern texts, the findings
recorded with rule `r`'s pattern text number exactly the lines matching
`r`'s pattern: each matching line yields one finding of `r` and no other
rule contributes. -/
theorem scanRules_countP {file : String} {lines : List (List Char)} {r : SecRule} :
    ∀ rs : List SecRule, (rs.Pairwise fun a b => a.src ≠ b.src) → r ∈ rs →
      ((scanRules file rs lines).countP fun f => decide (f.patternSrc = some r.src)) =
        lines.countP fun l => reSearch r.regex l := by
  intro rs
  induction rs with
  | nil => intro _ hm; cases hm
  | cons r0 rest ih =>
    intro hp hm
    rcases List.pairwise_cons.1 hp with ⟨hhead, htail⟩
    simp only [scanRules, List.countP_append]
    rcases List.mem_cons.1 hm with rfl | hm'
    · rw [ruleScan_countP, if_pos rfl,
        scanRules_countP_zero rest fun r' hr' => (hhead r' hr').symm]
      omega
    · rw [ruleScan_countP, if_neg (hhead r hm'), ih htail hm']
      omega

/-- A pairwise-ordered list in which no two related elements can both
satisfy `p` holds at most one `p`-element. -/
theorem countP_le_one_of_pairwise {α : Type} {p : α → Bool} {R : α → α → Prop}
    (h : ∀ a b, R a b → p a → p b → False) :
    ∀ {l : List α}, l.Pairwise R → l.countP p ≤ 1 := by
  intro l hl
  induction hl with
  | nil => simp
  | @cons a t hr _ ih =>
    by_cases hp : p a
    · have ht : t.countP p = 0 :=
        List.countP_eq_zero.2 fun b hb hpb => h a b (hr b hb) hp hpb
      simp [List.countP_cons, hp, ht]
    · simp [List.countP_cons, hp]
      omega

/-- The catalog's pattern texts are pairwise distinct. -/
theorem catalog_src_ne : catalogFlat.Pairwise fun a b => a.src ≠ b.src := by decide

/-- One rule places at most one finding on any single line: across the
whole rule loop, the findings carrying rule `r`'s pattern text and line
number `n` number at most one. -/
theorem scanRules_line_le_one {file : String} {lines : List (List Char)}
    {r : SecRule} {n : Nat} :
    ∀ rs : List SecRule, (rs.Pairwise fun a b => a.src ≠ b.src) → r ∈ rs →
      ((scanRules file rs lines).countP fun f =>
        decide (f.patternSrc = some r.src ∧ f.line = n)) ≤ 1 := by
  intro rs
  induction rs with
  | nil => intro _ hm; cases hm
  | cons r0 rest ih =>
    intro hp hm
    rcases List.pairwise_cons.1 hp with ⟨hhead, htail⟩
    simp only [scanRules, List.countP_append]
    rcases List.mem_cons.1 hm with rfl | hm'
    · have h2 : ((scanRules file rest lines).countP fun f =>
          decide (f.patternSrc = some r.src ∧ f.line = n)) = 0 := by
        refine List.countP_eq_zero.2 fun g hg hpg => ?_
        obtain ⟨r', hr', hgblk⟩ := scanRules_mem hg
        have hsrc' := (ruleScan_mem hgblk).1
        rw [decide_eq_true_eq] at hpg
        rw [hpg.1] at hsrc'
        exact (hhead r' hr') (Option.some.inj hsrc')
      have h1 : ((ruleScan file r 1 lines).countP fun f =>
          decide (f.patternSrc = some r.src ∧ f.line = n)) ≤ 1 := by
        refine countP_le_one_of_pairwise ?_ (ruleScan_pairwise 1 lines)
        intro a b hab hpa hpb
        rw [decide_eq_true_eq] at hpa hpb
        omega
      omega
    · have h1 : ((ruleScan file r0 1 lines).countP fun f =>
          decide (f.patternSrc = some r.src ∧ f.line = n)) = 0 := by
        refine List.countP_eq_zero.2 fun g hg hpg => ?_
        have hsrc' := (ruleScan_mem hg).1
        rw [decide_eq_true_eq] at hpg
        rw [hpg.1] at hsrc'
        exact (hhead r hm') (Option.some.inj hsrc'.symm)
      have h2 := ih htail hm'
      omega

/-- Claim C9, counterexample: The language-specific JavaScript `eval` check
is applied case-sensitively: `eval(1)` produces its finding while the
case variant `EVAL(1)` produces none, so not every rule applied to a line
is tested case-insensitively. -/
theorem C9_counterexample :
    (scanFile "a.js" "eval(1)".data).map (fun f => (f.category, f.severity)) =
      [("code_injection", "high")] ∧
    scanFile "a.js" "EVAL(1)".data = [] := by
  exact ⟨by decide, by decide⟩

/-- Claim C9, amended: The catalog rules (the Line Matcher) are tested
case-insensitively — lower-casing a line never changes whether a catalog
pattern matches — and each catalog rule yields exactly one finding per
line it matches (so at most one finding per rule and line, while distinct
matching rules each contribute their own finding); the language-specific
checks, by contrast, match case-sensitively. -/
theorem C9_amended_catalog_rules :
    (∀ r ∈ catalogFlat, ∀ line : List Char,
      reSearch r.regex (line.map lowerChar) = reSearch r.regex line) ∧
    (∀ r ∈ catalogFlat, ∀ (file : String) (lines : List (List Char)),
      ((scanRules file catalogFlat lines).countP fun f =>
        decide (f.patternSrc = some r.src)) =
        lines.countP fun l => reSearch r.regex l) ∧
    (∀ r ∈ catalogFlat, ∀ (file : String) (lines : List (List Char)) (n : Nat),
      ((scanRules file catalogFlat lines).countP fun f =>
        decide (f.patternSrc = some r.src ∧ f.line = n)) ≤ 1) :=
  ⟨fun r hr line => reSearch_lower (ciok_catalog r hr) line,
   fun _ hr _ _ => scanRules_countP catalogFlat catalog_src_ne hr,
   fun _ hr _ _ _ => scanRules_line_le_one catalogFlat catalog_src_ne hr⟩

/-- The first catalog rule is in the catalog. -/
theorem sqlRule1_mem : sqlRule1 ∈ catalogFlat := List.Mem.head _

/-- Claim C9, witness: The amended theorem applied to the first catalog
rule: a mixed-case line, and one matching line yielding one finding. -/
theorem C9_witness :
    reSearch sqlRule1.regex (sqlDemoLine.map lowerChar) =
      reSearch sqlRule1.regex sqlDemoLine ∧
    ((scanRules "f.txt" catalogFlat [sqlDemoLine]).countP fun f =>
      decide (f.patternSrc = some sqlRule1.src)) =
      [sqlDemoLine].countP (fun l => reSearch sqlRule1.regex l) ∧
    ((scanRules "f.txt" catalogFlat [sqlDemoLine]).countP fun f =>
      decide (f.patternSrc = some sqlRule1.src ∧ f.line = 1)) ≤ 1 :=
  ⟨C9_amended_catalog_rules.1 sqlRule1 sqlRule1_mem sqlDemoLine,
   C9_amended_catalog_rules.2.1 sqlRule1 sqlRule1_mem "f.txt" [sqlDemoLine],
   C9_amended_catalog_rules.2.2 sqlRule1 sqlRule1_mem "f.txt" [sqlDemoLine] 1⟩

end AIPR


